import Mathlib

/-!
Shallow embedding of `src/bike_collector.py` (Door2Dock bike data collector).

The program discovers Santander Cycles stations within a fixed radius of a
reference point, stores them in a `monitored_stations` SQLite table, and on
each collection cycle appends one row per serviceable monitored station to the
append-only `bike_availability` table.

Modelling conventions:
* Coordinates and distances are rationals (`ℚ`), standing in for Python floats.
  The haversine distance (a transcendental float computation) is not embedded;
  every function that uses it takes an arbitrary distance function
  `dist : ℚ → ℚ → ℚ` (distance from the fixed reference coordinate to the
  given latitude/longitude), so theorems quantify over all possible distance
  functions, the float haversine values included.
* Network fetches are parameters of type `Except FetchError (List Station)`:
  `Except.error` models a raised `requests.RequestException` (timeout,
  `raise_for_status`, or malformed JSON payload).
* The SQLite `monitored_stations` table (primary key `station_id`) is a
  `List MonitoredRow`; `INSERT OR REPLACE` deletes the row with the same key
  and appends the fresh row (new rowid), matching SQLite storage order.
* The `bike_availability` table is an append-only `List Reading`; a cycle's
  inserts become visible only at `conn.commit()`, so a cycle that raises
  before committing leaves the list unchanged.
* An uncaught Python exception (`ValueError` from `int(...)`) is modelled by
  the result constructor `CollectResult.raised` / the `Event.raised` trace
  marker rather than by a partial function.
-/

/-- A key/value pair from a station's `additionalProperties` JSON list.
`p.get("key", "")` / `p.get("value", "")` always yield strings here. -/
structure PropKV where
  key : String
  value : String
deriving DecidableEq

/-- A station object of the upstream catalog (`/BikePoint` JSON element). -/
structure Station where
  id : String
  commonName : String
  lat : ℚ
  lon : ℚ
  additionalProperties : List PropKV
deriving DecidableEq

/-- The constant `SEARCH_RADIUS_M = 800` from the configuration block. -/
def SEARCH_RADIUS_M : ℚ := 800

/-- The constant `POLL_INTERVAL = 60` from the configuration block. -/
def POLL_INTERVAL : Nat := 60

/-- A Python `dict` with string keys and values, as an association list with
unique keys; insertion order is preserved and re-insertion overwrites. -/
abbrev PropsDict := List (String × String)

/-- Python `d[k] = v` on a string dict. -/
def dictInsert (d : PropsDict) (k v : String) : PropsDict :=
  if d.any (fun q => q.1 == k) then d.map (fun q => if q.1 == k then (k, v) else q)
  else d ++ [(k, v)]

/-- Python `d.get(k)` on a string dict (`none` models Python `None`). -/
def dictGet (d : PropsDict) (k : String) : Option String :=
  (d.find? (fun q => q.1 == k)).map (fun q => q.2)

/-- The keys recognised by `parse_properties`. -/
def relevantKeys : List String :=
  ["NbBikes", "NbEBikes", "NbEmptyDocks", "NbDocks",
   "NbStandardBikes", "Installed", "Locked"]

/-- The function `parse_properties`: keeps only the recognised keys of
`additionalProperties`, later pairs overwriting earlier ones. -/
def parse_properties (additional_properties : List PropKV) : PropsDict :=
  additional_properties.foldl
    (fun props p =>
      if relevantKeys.contains p.key then dictInsert props p.key p.value
      else props)
    []

/-- Value of a nonempty decimal digit string. -/
def digitsToNat (cs : List Char) : Nat :=
  cs.foldl (fun n c => 10 * n + (c.toNat - 48)) 0

/-- Parses a nonempty all-digit character list, else `none`. -/
def pyIntDigits (cs : List Char) : Option Nat :=
  if !cs.isEmpty && cs.all Char.isDigit then some (digitsToNat cs) else none

/-- The Python builtin `int` applied to a string: optional surrounding
whitespace, optional sign, then decimal digits; anything else raises
`ValueError` (`none`). Digit-grouping underscores are not modelled — the feed
serves plain digit strings. -/
def pyInt (s : String) : Option Int :=
  let t := ((s.toList.dropWhile Char.isWhitespace).reverse.dropWhile
      Char.isWhitespace).reverse
  match t with
  | '-' :: rest => (pyIntDigits rest).map (fun n => -(n : Int))
  | '+' :: rest => (pyIntDigits rest).map (fun n => (n : Int))
  | _ => (pyIntDigits t).map (fun n => (n : Int))

/-- The one exception kind the collector can raise mid-cycle. -/
inductive PyError where
  | valueError
deriving DecidableEq

/-- The expression `int(props.get(key, 0))`: an absent key is coerced to `0`;
a present value
that `int` cannot parse raises `ValueError`. -/
def propInt (props : PropsDict) (key : String) : Except PyError Int :=
  match dictGet props key with
  | none => Except.ok 0
  | some v =>
    match pyInt v with
    | some n => Except.ok n
    | none => Except.error PyError.valueError

/-- The Python builtin `round` on a rational: nearest integer, ties to even.
Written over numerator and denominator (`f` is the floor, `r` the
nonnegative remainder, `r / den` the fractional part compared with `1/2`). -/
def pyRound (q : ℚ) : ℤ :=
  let f := Int.fdiv q.num q.den
  let r := q.num - f * (q.den : ℤ)
  if 2 * r < (q.den : ℤ) then f
  else if (q.den : ℤ) < 2 * r then f + 1
  else if f % 2 = 0 then f else f + 1

/-- A transport failure of the TfL fetch
(`requests.RequestException` subclasses). -/
inductive FetchError where
  | timeout
  | httpStatus (code : Nat)
  | malformedPayload
deriving DecidableEq

/-- Outcome of `fetch_all_stations`: the full catalog, or a raised
`requests.RequestException`. -/
abbrev FetchOutcome := Except FetchError (List Station)

/-- One element of the `nearby` list built by `discover_stations`. -/
structure NearbyEntry where
  station_id : String
  station_name : String
  latitude : ℚ
  longitude : ℚ
  distance_m : ℤ
  total_docks : String
  available_bikes : String
  ebikes : String
deriving DecidableEq

/-- One row of the `monitored_stations` table. -/
structure MonitoredRow where
  station_id : String
  station_name : String
  latitude : ℚ
  longitude : ℚ
  distance_m : ℤ
deriving DecidableEq

/-- The dict appended to `nearby` for a station within the radius. -/
def nearbyEntry (dist : ℚ → ℚ → ℚ) (s : Station) : NearbyEntry :=
  let props := parse_properties s.additionalProperties
  { station_id := s.id
    station_name := s.commonName
    latitude := s.lat
    longitude := s.lon
    distance_m := pyRound (dist s.lat s.lon)
    total_docks := (dictGet props "NbDocks").getD "?"
    available_bikes := (dictGet props "NbBikes").getD "?"
    ebikes := (dictGet props "NbEBikes").getD "?" }

/-- The `monitored_stations` row written for a `nearby` entry. -/
def rowOfEntry (e : NearbyEntry) : MonitoredRow :=
  { station_id := e.station_id
    station_name := e.station_name
    latitude := e.latitude
    longitude := e.longitude
    distance_m := e.distance_m }

/-- SQLite `INSERT OR REPLACE` keyed on `station_id`: the conflicting row is
deleted and the fresh row appended (a fresh rowid places it last). -/
def upsertRow (reg : List MonitoredRow) (r : MonitoredRow) : List MonitoredRow :=
  reg.filter (fun x => !(x.station_id == r.station_id)) ++ [r]

/-- The call `nearby.sort(key=lambda x: x["distance_m"])`. Python's sort is
stable, and
a stable sort is determined extensionally by its comparison key, so insertion
sort (stable, structurally recursive) is the same list transformation. -/
def sortByDistance (l : List NearbyEntry) : List NearbyEntry :=
  l.insertionSort (fun a b => a.distance_m ≤ b.distance_m)

/-- The function `discover_stations`: on fetch failure returns the empty list
and leaves
the registry untouched; otherwise keeps the stations whose distance from the
reference coordinate is at most `SEARCH_RADIUS_M`, sorts them by ascending
rounded distance and upserts each into the registry. Returns the updated
registry together with the `nearby` list the Python function returns. -/
def discover_stations (dist : ℚ → ℚ → ℚ) (fetch : FetchOutcome)
    (reg : List MonitoredRow) : List MonitoredRow × List NearbyEntry :=
  match fetch with
  | Except.error _ => (reg, [])
  | Except.ok all_stations =>
    let nearby := sortByDistance
      ((all_stations.filter
        (fun s => decide (dist s.lat s.lon ≤ SEARCH_RADIUS_M))).map
        (nearbyEntry dist))
    (nearby.foldl (fun acc e => upsertRow acc (rowOfEntry e)) reg, nearby)

/-- One row of the append-only `bike_availability` table. -/
structure Reading where
  timestamp : String
  station_id : String
  station_name : String
  available_bikes : Int
  standard_bikes : Int
  ebikes : Int
  empty_docks : Int
  total_docks : Int
  latitude : ℚ
  longitude : ℚ
deriving DecidableEq

/-- The dict comprehension `station_map = {s["id"]: s for s in all_stations}`
followed by `station_map.get(sid)`: the last catalog entry with a given id
wins. -/
def stationMap (stations : List Station) (sid : String) : Option Station :=
  stations.foldl (fun acc s => if s.id == sid then some s else acc) none

/-- The skip condition
`props.get("Installed") == "false" or props.get("Locked") == "true"`. -/
def notServiceable (props : PropsDict) : Bool :=
  (dictGet props "Installed" == some "false")
    || (dictGet props "Locked" == some "true")

/-- The numeric property keys converted with `int(...)` in the insert. -/
def numericKeys : List String :=
  ["NbBikes", "NbStandardBikes", "NbEBikes", "NbEmptyDocks", "NbDocks"]

/-- The `bike_availability` row built for one serviceable station, or the
`ValueError` raised by one of the `int(...)` conversions. -/
def readingOf (ts : String) (s : Station) : Except PyError Reading :=
  let props := parse_properties s.additionalProperties
  match propInt props "NbBikes" with
  | Except.error e => Except.error e
  | Except.ok ab =>
    match propInt props "NbStandardBikes" with
    | Except.error e => Except.error e
    | Except.ok sb =>
      match propInt props "NbEBikes" with
      | Except.error e => Except.error e
      | Except.ok eb =>
        match propInt props "NbEmptyDocks" with
        | Except.error e => Except.error e
        | Except.ok ed =>
          match propInt props "NbDocks" with
          | Except.error e => Except.error e
          | Except.ok td =>
            Except.ok
              { timestamp := ts
                station_id := s.id
                station_name := s.commonName
                available_bikes := ab
                standard_bikes := sb
                ebikes := eb
                empty_docks := ed
                total_docks := td
                latitude := s.lat
                longitude := s.lon }

/-- The per-station loop of `collect_once`: skips identifiers absent from the
catalog lookup and stations flagged uninstalled or locked, otherwise inserts
one reading; a `ValueError` aborts the whole cycle before any commit. -/
def collectLoop (cat : List Station) (ts : String) :
    List String → Except PyError (List Reading)
  | [] => Except.ok []
  | sid :: rest =>
    match stationMap cat sid with
    | none => collectLoop cat ts rest
    | some station =>
      if notServiceable (parse_properties station.additionalProperties) then
        collectLoop cat ts rest
      else
        match readingOf ts station with
        | Except.error e => Except.error e
        | Except.ok r =>
          match collectLoop cat ts rest with
          | Except.error e => Except.error e
          | Except.ok rows => Except.ok (r :: rows)

/-- The persistent store: the two SQLite tables. -/
structure SysState where
  registry : List MonitoredRow
  readings : List Reading
deriving DecidableEq

/-- How a call to `collect_once` ends: the string `"ok"`, the string
`"error"`, or an uncaught exception propagating out of the function. -/
inductive CollectResult where
  | ok
  | error
  | raised
deriving DecidableEq

/-- Result of one `collect_once` call: the store afterwards, how the call
ended, the `collected` counter of committed rows, and how many times
`discover_stations` was invoked. -/
structure CollectOutcome where
  state : SysState
  result : CollectResult
  collected : Nat
  discoveryCalls : Nat
deriving DecidableEq

/-- The function `collect_once`: loads the monitored identifiers, running
discovery once
(and reloading) if there are none; reports `"error"` when the registry is
still empty or the catalog fetch raises; otherwise runs the insert loop and
commits its rows, an uncaught `ValueError` leaving the readings uncommitted.
`fetchD` is the catalog fetch a fallback discovery would perform, `fetchC`
the cycle's own catalog fetch, `ts` the `now_utc` timestamp taken once. -/
def collect_once (dist : ℚ → ℚ → ℚ) (fetchD fetchC : FetchOutcome)
    (ts : String) (st : SysState) : CollectOutcome :=
  let ids0 := st.registry.map MonitoredRow.station_id
  let regAndCalls :=
    if ids0.isEmpty then ((discover_stations dist fetchD st.registry).1, 1)
    else (st.registry, 0)
  let reg1 := regAndCalls.1
  let dcalls := regAndCalls.2
  let ids1 := reg1.map MonitoredRow.station_id
  if ids1.isEmpty then
    { state := { registry := reg1, readings := st.readings }
      result := CollectResult.error, collected := 0, discoveryCalls := dcalls }
  else
    match fetchC with
    | Except.error _ =>
      { state := { registry := reg1, readings := st.readings }
        result := CollectResult.error, collected := 0, discoveryCalls := dcalls }
    | Except.ok cat =>
      match collectLoop cat ts ids1 with
      | Except.error _ =>
        { state := { registry := reg1, readings := st.readings }
          result := CollectResult.raised, collected := 0
          discoveryCalls := dcalls }
      | Except.ok rows =>
        { state := { registry := reg1, readings := st.readings ++ rows }
          result := CollectResult.ok, collected := rows.length
          discoveryCalls := dcalls }

/-- An observable event of a scheduler run: one collection cycle, one
`time.sleep`, or an exception escaping `collect_once` (which kills the run). -/
inductive Event where
  | cycle
  | sleep (secs : Nat)
  | raised
deriving DecidableEq

/-- The external inputs one collection cycle consumes. -/
structure CycleInput where
  fetchD : FetchOutcome
  fetchC : FetchOutcome
  ts : String

/-- The function `run_burst`: one `collect_once` per cycle, sleeping `60`
seconds between
consecutive cycles and not after the last; an uncaught exception aborts the
remaining cycles. The list of per-cycle inputs plays the role of
`range(cycles)`. Returns the final store and the event trace. -/
def run_burst (dist : ℚ → ℚ → ℚ) :
    SysState → List CycleInput → SysState × List Event
  | st, [] => (st, [])
  | st, inp :: rest =>
    let out := collect_once dist inp.fetchD inp.fetchC inp.ts st
    if out.result = CollectResult.raised then
      (out.state, [Event.cycle, Event.raised])
    else
      match rest with
      | [] => (out.state, [Event.cycle])
      | _ :: _ =>
        let next := run_burst dist out.state rest
        (next.1, Event.cycle :: Event.sleep 60 :: next.2)

/-- Rows of a registry write list that survive to the end: the last
occurrence of each `station_id`, in order of last occurrence. -/
def dedupLast : List MonitoredRow → List MonitoredRow
  | [] => []
  | r :: l =>
    if (l.map MonitoredRow.station_id).contains r.station_id then dedupLast l
    else r :: dedupLast l

/-- The event trace of an n-cycle burst in which no cycle raises. -/
def burstTrace : Nat → List Event
  | 0 => []
  | 1 => [Event.cycle]
  | n + 2 => Event.cycle :: Event.sleep 60 :: burstTrace (n + 1)

/-! Concrete fixtures used by the witness theorems. -/

/-- A concrete distance function: every station is 100 m away. -/
def wD : ℚ → ℚ → ℚ := fun _ _ => 100

/-- A fully populated serviceable catalog station. -/
def wS1 : Station :=
  { id := "S1"
    commonName := "Imperial College"
    lat := 0
    lon := 0
    additionalProperties :=
      [⟨"NbBikes", "3"⟩, ⟨"NbEBikes", "1"⟩, ⟨"NbEmptyDocks", "4"⟩,
       ⟨"NbDocks", "8"⟩, ⟨"Installed", "true"⟩, ⟨"Locked", "false"⟩] }

/-- A station whose `Installed` value is `"False"` (capitalised, so it does
not match the exact lowercase `"false"`) and that has no `Locked` key. -/
def wS2 : Station :=
  { id := "S2"
    commonName := "Odd Flags"
    lat := 0
    lon := 0
    additionalProperties := [⟨"Installed", "False"⟩, ⟨"NbBikes", "2"⟩] }

/-- A station whose `NbBikes` value does not parse as an integer. -/
def wS3 : Station :=
  { id := "S3"
    commonName := "Bad Value"
    lat := 0
    lon := 0
    additionalProperties := [⟨"NbBikes", "abc"⟩, ⟨"Installed", "true"⟩] }

/-- A registry row for the given identifier. -/
def wRow (sid : String) : MonitoredRow :=
  { station_id := sid
    station_name := "row"
    latitude := 0
    longitude := 0
    distance_m := 100 }

/-- A store monitoring exactly `"S1"`, with no readings yet. -/
def wSt1 : SysState := { registry := [wRow "S1"], readings := [] }

/-- A store monitoring `"S2"`. -/
def wSt2 : SysState := { registry := [wRow "S2"], readings := [] }

/-- A store monitoring `"S3"`. -/
def wSt3 : SysState := { registry := [wRow "S3"], readings := [] }

/-- The store of a fresh installation: no monitored stations, no readings. -/
def wStEmpty : SysState := { registry := [], readings := [] }

/-- A cycle input whose fetches both fail with a timeout. -/
def wFailInput : CycleInput :=
  { fetchD := Except.error FetchError.timeout
    fetchC := Except.error FetchError.timeout
    ts := "t" }

/-! ## Registry upsert lemmas -/

theorem dedupLast_cons (r : MonitoredRow) (L : List MonitoredRow) :
    dedupLast (r :: L)
      = if (L.map MonitoredRow.station_id).contains r.station_id then dedupLast L
        else r :: dedupLast L := rfl

theorem dedupLast_subset (L : List MonitoredRow) :
    ∀ x ∈ dedupLast L, x ∈ L := by
  induction L with
  | nil => intro x hx; simp [dedupLast] at hx
  | cons r L ih =>
    intro x hx
    rw [dedupLast_cons] at hx
    by_cases hc : (L.map MonitoredRow.station_id).contains r.station_id = true
    · rw [if_pos hc] at hx
      exact List.mem_cons_of_mem _ (ih x hx)
    · rw [if_neg hc] at hx
      rcases List.mem_cons.mp hx with rfl | hx'
      · exact List.mem_cons_self _ _
      · exact List.mem_cons_of_mem _ (ih x hx')

theorem foldl_upsert_eq (L : List MonitoredRow) :
    ∀ reg : List MonitoredRow,
      L.foldl upsertRow reg
        = reg.filter
            (fun x => !((L.map MonitoredRow.station_id).contains x.station_id))
            ++ dedupLast L := by
  induction L with
  | nil =>
    intro reg
    simp [dedupLast]
  | cons r L ih =>
    intro reg
    rw [List.foldl_cons, ih (upsertRow reg r)]
    unfold upsertRow
    rw [List.filter_append, List.filter_filter]
    have hpt : ∀ x ∈ reg,
        ((!((L.map MonitoredRow.station_id).contains x.station_id))
            && !(x.station_id == r.station_id))
          = !((((r :: L).map MonitoredRow.station_id).contains x.station_id)) := by
      intro x _
      simp only [List.map_cons, List.contains_cons, Bool.not_or]
      exact Bool.and_comm _ _
    rw [List.filter_congr hpt, dedupLast_cons]
    by_cases hc : (L.map MonitoredRow.station_id).contains r.station_id = true
    · have h1 : List.filter
          (fun x => !((L.map MonitoredRow.station_id).contains x.station_id)) [r]
          = [] := by
        rw [List.filter_singleton, hc]
        rfl
      rw [if_pos hc, h1, List.append_nil]
    · rw [Bool.not_eq_true] at hc
      have h1 : List.filter
          (fun x => !((L.map MonitoredRow.station_id).contains x.station_id)) [r]
          = [r] := by
        rw [List.filter_singleton, hc]
        rfl
      rw [if_neg (by rw [hc]; exact Bool.false_ne_true), h1, List.append_assoc,
        List.singleton_append]

theorem foldl_upsert_idem (L reg : List MonitoredRow) :
    L.foldl upsertRow (L.foldl upsertRow reg) = L.foldl upsertRow reg := by
  rw [foldl_upsert_eq L reg, foldl_upsert_eq L]
  rw [List.filter_append, List.filter_filter]
  have h1 : List.filter
      (fun x => !((L.map MonitoredRow.station_id).contains x.station_id))
      (dedupLast L) = [] := by
    rw [List.filter_eq_nil_iff]
    intro x hx
    have hxL : x.station_id ∈ L.map MonitoredRow.station_id :=
      List.mem_map_of_mem _ (dedupLast_subset L x hx)
    simp [hxL]
  have h3 : ∀ x ∈ reg,
      ((!((L.map MonitoredRow.station_id).contains x.station_id))
          && !((L.map MonitoredRow.station_id).contains x.station_id))
        = (!((L.map MonitoredRow.station_id).contains x.station_id)) :=
    fun x _ => Bool.and_self _
  rw [List.filter_congr h3, h1, List.append_nil]

/-! ## Discovery theorems -/

/-- C1: for every fetched catalog, Discovery keeps a station if and only if
its computed distance from the reference coordinate is at most the configured
radius of 800 m: every kept entry comes from a catalog station whose distance
is within the radius, and every catalog station within the radius is kept. -/
theorem discover_keeps_iff_within_radius (dist : ℚ → ℚ → ℚ) (cat : List Station)
    (reg : List MonitoredRow) :
    (∀ e ∈ (discover_stations dist (Except.ok cat) reg).2,
      ∃ s ∈ cat, e = nearbyEntry dist s ∧ dist s.lat s.lon ≤ SEARCH_RADIUS_M) ∧
    (∀ s ∈ cat, dist s.lat s.lon ≤ SEARCH_RADIUS_M →
      nearbyEntry dist s ∈ (discover_stations dist (Except.ok cat) reg).2) := by
  constructor
  · intro e he
    simp only [discover_stations, sortByDistance] at he
    rw [(List.perm_insertionSort _ _).mem_iff] at he
    simp only [List.mem_map, List.mem_filter, decide_eq_true_eq] at he
    obtain ⟨s, ⟨hs, hd⟩, rfl⟩ := he
    exact ⟨s, hs, rfl, hd⟩
  · intro s hs hd
    simp only [discover_stations, sortByDistance]
    rw [(List.perm_insertionSort _ _).mem_iff]
    simp only [List.mem_map, List.mem_filter, decide_eq_true_eq]
    exact ⟨s, ⟨hs, hd⟩, rfl⟩

/-- Witness for C1: with every station 100 m away, the station of a
one-element catalog is kept by Discovery. -/
theorem discover_keeps_iff_within_radius_witness :
    nearbyEntry wD wS1 ∈ (discover_stations wD (Except.ok [wS1]) []).2 :=
  (discover_keeps_iff_within_radius wD [wS1] []).2 wS1 (by decide) (by decide)

/-- C5: running Discovery twice against an unchanged upstream catalog leaves
the Monitored-Station Registry unchanged after the second run (the
insert-or-replace by primary key is idempotent). -/
theorem discover_idempotent (dist : ℚ → ℚ → ℚ) (cat : List Station)
    (reg : List MonitoredRow) :
    (discover_stations dist (Except.ok cat)
        ((discover_stations dist (Except.ok cat) reg).1)).1
      = (discover_stations dist (Except.ok cat) reg).1 := by
  simp only [discover_stations]
  rw [← List.foldl_map rowOfEntry upsertRow, ← List.foldl_map rowOfEntry upsertRow]
  exact foldl_upsert_idem _ _

/-! ## Collection loop lemmas -/

theorem stationMap_foldl_id (stations : List Station) (sid : String) :
    ∀ acc : Option Station, (∀ s, acc = some s → s.id = sid) →
      ∀ s, stations.foldl (fun a st => if st.id == sid then some st else a) acc
          = some s → s.id = sid := by
  induction stations with
  | nil => intro acc hacc s h; exact hacc s h
  | cons st rest ih =>
    intro acc hacc s h
    rw [List.foldl_cons] at h
    refine ih _ ?_ s h
    intro s' h'
    by_cases hid : (st.id == sid) = true
    · rw [if_pos hid] at h'
      cases h'
      exact eq_of_beq hid
    · rw [if_neg hid] at h'
      exact hacc s' h'

theorem stationMap_id (stations : List Station) (sid : String) (s : Station)
    (h : stationMap stations sid = some s) : s.id = sid := by
  refine stationMap_foldl_id stations sid none ?_ s h
  intro s' h'
  cases h'

theorem readingOf_ok_fields (ts : String) (s : Station) (r : Reading)
    (h : readingOf ts s = Except.ok r) :
    r.timestamp = ts ∧ r.station_id = s.id := by
  simp only [readingOf] at h
  repeat' split at h
  all_goals cases h
  exact ⟨rfl, rfl⟩

theorem collectLoop_nil (cat : List Station) (ts : String) :
    collectLoop cat ts [] = Except.ok [] := rfl

theorem collectLoop_cons (cat : List Station) (ts : String) (sid : String)
    (rest : List String) :
    collectLoop cat ts (sid :: rest)
      = match stationMap cat sid with
        | none => collectLoop cat ts rest
        | some station =>
          if notServiceable (parse_properties station.additionalProperties) then
            collectLoop cat ts rest
          else
            match readingOf ts station with
            | Except.error e => Except.error e
            | Except.ok r =>
              match collectLoop cat ts rest with
              | Except.error e => Except.error e
              | Except.ok rows => Except.ok (r :: rows) := rfl

theorem collectLoop_ok_spec (cat : List Station) (ts : String) :
    ∀ (ids : List String) (rows : List Reading),
      collectLoop cat ts ids = Except.ok rows →
      ∀ r ∈ rows, r.station_id ∈ ids ∧ r.timestamp = ts ∧
        ∃ s, stationMap cat r.station_id = some s ∧
          notServiceable (parse_properties s.additionalProperties) = false := by
  intro ids
  induction ids with
  | nil =>
    intro rows h r hr
    rw [collectLoop_nil] at h
    cases h
    simp at hr
  | cons sid rest ih =>
    intro rows h r hr
    rw [collectLoop_cons] at h
    split at h
    · obtain ⟨h1, h2, h3⟩ := ih rows h r hr
      exact ⟨List.mem_cons_of_mem _ h1, h2, h3⟩
    · rename_i station hm
      split at h
      · obtain ⟨h1, h2, h3⟩ := ih rows h r hr
        exact ⟨List.mem_cons_of_mem _ h1, h2, h3⟩
      · rename_i hflag
        rw [Bool.not_eq_true] at hflag
        split at h
        · cases h
        · rename_i r0 hro
          split at h
          · cases h
          · rename_i rows' hlr
            cases h
            rcases List.mem_cons.mp hr with rfl | hr'
            · obtain ⟨hts, hid⟩ := readingOf_ok_fields ts station r hro
              have hsid := stationMap_id cat sid station hm
              refine ⟨?_, hts, station, ?_, hflag⟩
              · rw [hid, hsid]
                exact List.mem_cons_self _ _
              · rw [hid, hsid]
                exact hm
            · obtain ⟨h1, h2, h3⟩ := ih rows' hlr r hr'
              exact ⟨List.mem_cons_of_mem _ h1, h2, h3⟩

theorem collectLoop_writes (cat : List Station) (ts : String) :
    ∀ (ids : List String) (rows : List Reading),
      collectLoop cat ts ids = Except.ok rows →
      ∀ sid s, sid ∈ ids → stationMap cat sid = some s →
        notServiceable (parse_properties s.additionalProperties) = false →
        ∃ r ∈ rows, r.station_id = sid ∧ r.timestamp = ts := by
  intro ids
  induction ids with
  | nil =>
    intro rows h sid s hmem
    simp at hmem
  | cons sid0 rest ih =>
    intro rows h sid s hmem hs hserv
    rw [collectLoop_cons] at h
    rcases List.mem_cons.mp hmem with rfl | hmem'
    · split at h
      · rename_i hm0
        rw [hs] at hm0
        cases hm0
      · rename_i station hm0
        rw [hs] at hm0
        injection hm0 with hst
        subst hst
        split at h
        · rename_i hft
          rw [hserv] at hft
          cases hft
        · split at h
          · cases h
          · rename_i r0 hro
            split at h
            · cases h
            · rename_i rows' hlr
              cases h
              obtain ⟨hts, hid⟩ := readingOf_ok_fields ts s r0 hro
              refine ⟨r0, List.mem_cons_self _ _, ?_, hts⟩
              rw [hid]
              exact stationMap_id cat sid s hs
    · split at h
      · exact ih rows h sid s hmem' hs hserv
      · rename_i station hm0
        split at h
        · exact ih rows h sid s hmem' hs hserv
        · split at h
          · cases h
          · rename_i r0 hro
            split at h
            · cases h
            · rename_i rows' hlr
              cases h
              obtain ⟨r1, hr1, hprop⟩ := ih rows' hlr sid s hmem' hs hserv
              exact ⟨r1, List.mem_cons_of_mem _ hr1, hprop⟩

theorem readingOf_error_of_bad (ts : String) (s : Station) (k v : String)
    (hk : k ∈ numericKeys)
    (hv : dictGet (parse_properties s.additionalProperties) k = some v)
    (hbad : pyInt v = none) :
    readingOf ts s = Except.error PyError.valueError := by
  have hbadk : propInt (parse_properties s.additionalProperties) k
      = Except.error PyError.valueError := by
    simp only [propInt, hv, hbad]
  simp only [numericKeys, List.mem_cons, List.not_mem_nil, or_false] at hk
  simp only [readingOf]
  split
  · rename_i e h1
    cases e
    rfl
  · rename_i ab h1
    split
    · rename_i e h2
      cases e
      rfl
    · rename_i sb h2
      split
      · rename_i e h3
        cases e
        rfl
      · rename_i eb h3
        split
        · rename_i e h4
          cases e
          rfl
        · rename_i ed h4
          split
          · rename_i e h5
            cases e
            rfl
          · rename_i td h5
            exfalso
            rcases hk with rfl | rfl | rfl | rfl | rfl
            · rw [h1] at hbadk
              cases hbadk
            · rw [h2] at hbadk
              cases hbadk
            · rw [h3] at hbadk
              cases hbadk
            · rw [h4] at hbadk
              cases hbadk
            · rw [h5] at hbadk
              cases hbadk

theorem collectLoop_error_of_bad (cat : List Station) (ts : String) :
    ∀ ids : List String,
      (∃ sid ∈ ids, ∃ s, stationMap cat sid = some s ∧
        notServiceable (parse_properties s.additionalProperties) = false ∧
        ∃ k ∈ numericKeys, ∃ v,
          dictGet (parse_properties s.additionalProperties) k = some v ∧
          pyInt v = none) →
      collectLoop cat ts ids = Except.error PyError.valueError := by
  intro ids
  induction ids with
  | nil =>
    rintro ⟨sid, hmem, -⟩
    simp at hmem
  | cons sid0 rest ih =>
    rintro ⟨sid, hmem, s, hs, hserv, k, hk, v, hv, hbad⟩
    rw [collectLoop_cons]
    rcases List.mem_cons.mp hmem with rfl | hmem'
    · split
      · rename_i hm0
        rw [hs] at hm0
        cases hm0
      · rename_i station hm0
        rw [hs] at hm0
        injection hm0 with hst
        subst hst
        rw [if_neg (by rw [hserv]; exact Bool.false_ne_true)]
        rw [readingOf_error_of_bad ts s k v hk hv hbad]
    · have hrec := ih ⟨sid, hmem', s, hs, hserv, k, hk, v, hv, hbad⟩
      split
      · exact hrec
      · rename_i station hm0
        split
        · exact hrec
        · rw [hrec]
          split
          · rename_i e hro
            cases e
            rfl
          · rfl

theorem collect_once_spec (dist : ℚ → ℚ → ℚ) (fetchD fetchC : FetchOutcome)
    (ts : String) (st : SysState) :
    ((collect_once dist fetchD fetchC ts st).state.readings = st.readings ∧
      (collect_once dist fetchD fetchC ts st).collected = 0 ∧
      (collect_once dist fetchD fetchC ts st).result ≠ CollectResult.ok)
    ∨ (∃ cat rows, fetchC = Except.ok cat ∧
        collectLoop cat ts
            ((collect_once dist fetchD fetchC ts st).state.registry.map
              MonitoredRow.station_id)
          = Except.ok rows ∧
        (collect_once dist fetchD fetchC ts st).state.readings
          = st.readings ++ rows ∧
        (collect_once dist fetchD fetchC ts st).result = CollectResult.ok ∧
        (collect_once dist fetchD fetchC ts st).collected = rows.length) := by
  cases hfc : fetchC with
  | error e =>
    simp only [collect_once]
    repeat' split
    all_goals exact Or.inl ⟨rfl, rfl, by intro h; cases h⟩
  | ok cat =>
    simp only [collect_once]
    repeat' split
    all_goals try exact Or.inl ⟨rfl, rfl, by intro h; cases h⟩
    all_goals rename_i rows hloop
    all_goals exact Or.inr ⟨cat, rows, rfl, hloop, rfl, rfl, rfl⟩

theorem collect_once_registry_stable (dist : ℚ → ℚ → ℚ)
    (fetchD fetchC : FetchOutcome) (ts : String) (st : SysState)
    (hne : st.registry ≠ []) :
    (collect_once dist fetchD fetchC ts st).state.registry = st.registry ∧
    (collect_once dist fetchD fetchC ts st).discoveryCalls = 0 := by
  have h0 : (st.registry.map MonitoredRow.station_id).isEmpty = false := by
    cases hreg : st.registry with
    | nil => exact absurd hreg hne
    | cons a l => simp
  simp only [collect_once, h0, Bool.false_eq_true, if_false]
  repeat' split
  all_goals exact ⟨rfl, rfl⟩

/-! ## Collection cycle theorems -/

/-- C2: in every collection cycle, a Reading row is inserted only for a
station identifier that is in the registry at the time of collection, is
present in the cycle's fetched catalog, and is not flagged uninstalled or
locked there; an identifier absent from the catalog or flagged produces zero
new rows. -/
theorem collect_reading_provenance (dist : ℚ → ℚ → ℚ) (fetchD : FetchOutcome)
    (cat : List Station) (ts : String) (st : SysState) :
    ∃ rows : List Reading,
      (collect_once dist fetchD (Except.ok cat) ts st).state.readings
        = st.readings ++ rows ∧
      (∀ r ∈ rows,
        r.station_id ∈ (collect_once dist fetchD (Except.ok cat) ts
            st).state.registry.map MonitoredRow.station_id ∧
        ∃ s, stationMap cat r.station_id = some s ∧
          notServiceable (parse_properties s.additionalProperties) = false) ∧
      (∀ sid, (stationMap cat sid = none ∨
          ∃ s, stationMap cat sid = some s ∧
            notServiceable (parse_properties s.additionalProperties) = true) →
        ∀ r ∈ rows, r.station_id ≠ sid) := by
  rcases collect_once_spec dist fetchD (Except.ok cat) ts st with
    ⟨hread, -, -⟩ | ⟨cat', rows, hfc, hloop, hread, -, -⟩
  · refine ⟨[], by rw [hread, List.append_nil], ?_, ?_⟩
    · intro r hr
      simp at hr
    · intro sid hbad r hr
      simp at hr
  · injection hfc with hcat
    subst hcat
    refine ⟨rows, hread, ?_, ?_⟩
    · intro r hr
      obtain ⟨h1, -, h3⟩ := collectLoop_ok_spec cat ts _ rows hloop r hr
      exact ⟨h1, h3⟩
    · intro sid hbad r hr hrs
      obtain ⟨-, -, s', hm', hserv'⟩ := collectLoop_ok_spec cat ts _ rows hloop r hr
      rw [hrs] at hm'
      rcases hbad with hnone | ⟨s, hsome, hflag⟩
      · rw [hnone] at hm'
        cases hm'
      · rw [hsome] at hm'
        injection hm' with he
        subst he
        rw [hserv'] at hflag
        cases hflag

/-- C3: if the catalog fetch fails during a collection cycle with a non-empty
registry, the cycle writes zero Reading rows, leaves the registry unchanged,
reports the `"error"` outcome, and returns normally rather than raising, so
the next scheduled cycle can still run. -/
theorem collect_fetch_failure (dist : ℚ → ℚ → ℚ) (fetchD : FetchOutcome)
    (e : FetchError) (ts : String) (st : SysState) (hne : st.registry ≠ []) :
    collect_once dist fetchD (Except.error e) ts st
      = { state := st, result := CollectResult.error, collected := 0,
          discoveryCalls := 0 } ∧
    CollectResult.error ≠ CollectResult.raised := by
  refine ⟨?_, by intro h; cases h⟩
  have h0 : (st.registry.map MonitoredRow.station_id).isEmpty = false := by
    cases hreg : st.registry with
    | nil => exact absurd hreg hne
    | cons a l => simp
  simp only [collect_once, h0, Bool.false_eq_true, if_false]

/-- C4: all Reading rows written within one collection cycle carry the single
shared collection timestamp computed once per cycle. -/
theorem collect_shared_timestamp (dist : ℚ → ℚ → ℚ)
    (fetchD fetchC : FetchOutcome) (ts : String) (st : SysState) :
    ∃ rows : List Reading,
      (collect_once dist fetchD fetchC ts st).state.readings
        = st.readings ++ rows ∧
      ∀ r ∈ rows, r.timestamp = ts := by
  rcases collect_once_spec dist fetchD fetchC ts st with
    ⟨hread, -, -⟩ | ⟨cat, rows, -, hloop, hread, -, -⟩
  · refine ⟨[], by rw [hread, List.append_nil], ?_⟩
    intro r hr
    simp at hr
  · exact ⟨rows, hread,
      fun r hr => (collectLoop_ok_spec cat ts _ rows hloop r hr).2.1⟩

/-- C6: a collection cycle started with an empty registry invokes Discovery
exactly once before attempting collection, and if the registry is still empty
after that single Discovery the cycle reports the `"error"` outcome and
writes no Reading rows. -/
theorem collect_empty_registry (dist : ℚ → ℚ → ℚ)
    (fetchD fetchC : FetchOutcome) (ts : String) (st : SysState)
    (hempty : st.registry = []) :
    (collect_once dist fetchD fetchC ts st).discoveryCalls = 1 ∧
    ((discover_stations dist fetchD st.registry).1 = [] →
      collect_once dist fetchD fetchC ts st
        = { state := { registry := [], readings := st.readings },
            result := CollectResult.error, collected := 0,
            discoveryCalls := 1 }) := by
  have h0 : (st.registry.map MonitoredRow.station_id).isEmpty = true := by
    rw [hempty]
    rfl
  constructor
  · simp only [collect_once, h0, if_true]
    repeat' split
    all_goals rfl
  · intro hd
    have h1 : (((discover_stations dist fetchD st.registry).1).map
        MonitoredRow.station_id).isEmpty = true := by
      rw [hd]
      rfl
    simp [collect_once, h0, h1, hd]

/-- C7: every transport failure of the Feed Client (timeout, non-2xx status,
malformed payload) is a value distinct from every successful catalog, is
treated by the collector as no data for the cycle (the `"error"` outcome,
zero rows, store untouched), and never surfaces as an uncaught exception. -/
theorem fetch_failure_contained (dist : ℚ → ℚ → ℚ) (fetchD : FetchOutcome)
    (ts : String) (st : SysState) (err : FetchError)
    (hne : st.registry ≠ []) :
    (∀ cat : List Station, (Except.error err : FetchOutcome) ≠ Except.ok cat) ∧
    (collect_once dist fetchD (Except.error err) ts st).result
      = CollectResult.error ∧
    (collect_once dist fetchD (Except.error err) ts st).result
      ≠ CollectResult.raised ∧
    (collect_once dist fetchD (Except.error err) ts st).state = st ∧
    (collect_once dist fetchD (Except.error err) ts st).collected = 0 := by
  have h0 : (st.registry.map MonitoredRow.station_id).isEmpty = false := by
    cases hreg : st.registry with
    | nil => exact absurd hreg hne
    | cons a l => simp
  refine ⟨?_, ?_, ?_, ?_, ?_⟩
  · intro cat h
    cases h
  · simp only [collect_once, h0, Bool.false_eq_true, if_false]
  · simp only [collect_once, h0, Bool.false_eq_true, if_false]
    intro h
    cases h
  · simp only [collect_once, h0, Bool.false_eq_true, if_false]
  · simp only [collect_once, h0, Bool.false_eq_true, if_false]

/-- C9: a monitored station present in the catalog whose property bag does
not carry the exact value `"false"` under `Installed` nor the exact value
`"true"` under `Locked` is treated as serviceable: a successful cycle writes
a Reading row for it. -/
theorem flags_default_serviceable (dist : ℚ → ℚ → ℚ) (fetchD : FetchOutcome)
    (cat : List Station) (ts : String) (st : SysState) (sid : String)
    (s : Station)
    (hmem : sid ∈ st.registry.map MonitoredRow.station_id)
    (hs : stationMap cat sid = some s)
    (hinst : dictGet (parse_properties s.additionalProperties) "Installed"
      ≠ some "false")
    (hlock : dictGet (parse_properties s.additionalProperties) "Locked"
      ≠ some "true")
    (hok : (collect_once dist fetchD (Except.ok cat) ts st).result
      = CollectResult.ok) :
    ∃ rows : List Reading,
      (collect_once dist fetchD (Except.ok cat) ts st).state.readings
        = st.readings ++ rows ∧
      ∃ r ∈ rows, r.station_id = sid ∧ r.timestamp = ts := by
  have hne : st.registry ≠ [] := by
    intro h
    rw [h] at hmem
    simp at hmem
  have hserv : notServiceable (parse_properties s.additionalProperties)
      = false := by
    unfold notServiceable
    rw [Bool.or_eq_false_iff]
    constructor
    · rw [beq_eq_false_iff_ne]
      exact hinst
    · rw [beq_eq_false_iff_ne]
      exact hlock
  rcases collect_once_spec dist fetchD (Except.ok cat) ts st with
    ⟨-, -, hnok⟩ | ⟨cat', rows, hfc, hloop, hread, -, -⟩
  · exact absurd hok hnok
  · injection hfc with hcat
    subst hcat
    rw [(collect_once_registry_stable dist fetchD (Except.ok cat) ts st hne).1]
      at hloop
    obtain ⟨r, hrmem, hrid, hrts⟩ :=
      collectLoop_writes cat ts _ rows hloop sid s hmem hs hserv
    exact ⟨rows, hread, r, hrmem, hrid, hrts⟩

/-- C10: `int(props.get(key, 0))` coerces to zero only when the key is absent;
a present value that does not parse as an integer makes the cycle abort with
an uncaught `ValueError` instead of one of the defined failure outcomes, and
the rows of that cycle are never committed (the store is unchanged). -/
theorem unparseable_numeric_raises (dist : ℚ → ℚ → ℚ) (fetchD : FetchOutcome)
    (cat : List Station) (ts : String) (st : SysState) (sid : String)
    (s : Station) (k v : String)
    (hmem : sid ∈ st.registry.map MonitoredRow.station_id)
    (hs : stationMap cat sid = some s)
    (hserv : notServiceable (parse_properties s.additionalProperties) = false)
    (hk : k ∈ numericKeys)
    (hv : dictGet (parse_properties s.additionalProperties) k = some v)
    (hbad : pyInt v = none) :
    (∀ (props : PropsDict) (key : String), dictGet props key = none →
      propInt props key = Except.ok 0) ∧
    collect_once dist fetchD (Except.ok cat) ts st
      = { state := st, result := CollectResult.raised, collected := 0,
          discoveryCalls := 0 } := by
  constructor
  · intro props key h
    simp only [propInt, h]
  · have hne : st.registry ≠ [] := by
      intro h
      rw [h] at hmem
      simp at hmem
    have h0 : (st.registry.map MonitoredRow.station_id).isEmpty = false := by
      cases hreg : st.registry with
      | nil => exact absurd hreg hne
      | cons a l => simp
    have hloop : collectLoop cat ts (st.registry.map MonitoredRow.station_id)
        = Except.error PyError.valueError :=
      collectLoop_error_of_bad cat ts _
        ⟨sid, hmem, s, hs, hserv, k, hk, v, hv, hbad⟩
    simp only [collect_once, h0, Bool.false_eq_true, if_false, hloop]

/-- Witness for C3: a concrete failing fetch against a one-station registry
reports `"error"`, changes nothing and raises nothing. -/
theorem collect_fetch_failure_witness :
    collect_once wD (Except.error FetchError.timeout)
        (Except.error FetchError.timeout) "t" wSt1
      = { state := wSt1, result := CollectResult.error, collected := 0,
          discoveryCalls := 0 } ∧
    CollectResult.error ≠ CollectResult.raised :=
  collect_fetch_failure wD (Except.error FetchError.timeout)
    FetchError.timeout "t" wSt1 (by decide)

/-- Witness for C6: starting from an empty store with a failing discovery
fetch, the cycle runs Discovery once and reports `"error"` with no writes. -/
theorem collect_empty_registry_witness :
    (collect_once wD (Except.error FetchError.timeout)
      (Except.error FetchError.timeout) "t" wStEmpty).discoveryCalls = 1 ∧
    ((discover_stations wD (Except.error FetchError.timeout)
        wStEmpty.registry).1 = [] →
      collect_once wD (Except.error FetchError.timeout)
          (Except.error FetchError.timeout) "t" wStEmpty
        = { state := { registry := [], readings := wStEmpty.readings },
            result := CollectResult.error, collected := 0,
            discoveryCalls := 1 }) :=
  collect_empty_registry wD (Except.error FetchError.timeout)
    (Except.error FetchError.timeout) "t" wStEmpty (by decide)

/-- Witness for C7: a concrete timeout is distinct from every catalog and is
absorbed as the `"error"` outcome of a cycle over a one-station registry. -/
theorem fetch_failure_contained_witness :
    (∀ cat : List Station,
      (Except.error FetchError.timeout : FetchOutcome) ≠ Except.ok cat) ∧
    (collect_once wD (Except.error FetchError.timeout)
        (Except.error FetchError.timeout) "t" wSt1).result
      = CollectResult.error ∧
    (collect_once wD (Except.error FetchError.timeout)
        (Except.error FetchError.timeout) "t" wSt1).result
      ≠ CollectResult.raised ∧
    (collect_once wD (Except.error FetchError.timeout)
        (Except.error FetchError.timeout) "t" wSt1).state = wSt1 ∧
    (collect_once wD (Except.error FetchError.timeout)
        (Except.error FetchError.timeout) "t" wSt1).collected = 0 :=
  fetch_failure_contained wD (Except.error FetchError.timeout) "t" wSt1
    FetchError.timeout (by decide)

/-- Witness for C9: station `"S2"` carries `Installed = "False"` (capitalised)
and no `Locked` key, and a cycle over it still writes its reading. -/
theorem flags_default_serviceable_witness :
    ∃ rows : List Reading,
      (collect_once wD (Except.error FetchError.timeout) (Except.ok [wS2]) "t"
          wSt2).state.readings
        = wSt2.readings ++ rows ∧
      ∃ r ∈ rows, r.station_id = "S2" ∧ r.timestamp = "t" :=
  flags_default_serviceable wD (Except.error FetchError.timeout) [wS2] "t"
    wSt2 "S2" wS2 (by decide) (by decide) (by decide) (by decide) (by decide)

/-- Witness for C10: station `"S3"` carries `NbBikes = "abc"`, and the cycle
over it aborts with the uncaught `ValueError`, committing nothing. -/
theorem unparseable_numeric_raises_witness :
    (∀ (props : PropsDict) (key : String), dictGet props key = none →
      propInt props key = Except.ok 0) ∧
    collect_once wD (Except.error FetchError.timeout) (Except.ok [wS3]) "t"
        wSt3
      = { state := wSt3, result := CollectResult.raised, collected := 0,
          discoveryCalls := 0 } :=
  unparseable_numeric_raises wD (Except.error FetchError.timeout) [wS3] "t"
    wSt3 "S3" wS3 "NbBikes" "abc" (by decide) (by decide) (by decide)
    (by decide) (by decide) (by decide)

/-! ## Scheduler theorems -/

theorem run_burst_cons (dist : ℚ → ℚ → ℚ) (st : SysState) (inp : CycleInput)
    (rest : List CycleInput) :
    run_burst dist st (inp :: rest)
      = if (collect_once dist inp.fetchD inp.fetchC inp.ts st).result
            = CollectResult.raised then
          ((collect_once dist inp.fetchD inp.fetchC inp.ts st).state,
            [Event.cycle, Event.raised])
        else
          match rest with
          | [] => ((collect_once dist inp.fetchD inp.fetchC inp.ts st).state,
              [Event.cycle])
          | _ :: _ =>
            ((run_burst dist
                (collect_once dist inp.fetchD inp.fetchC inp.ts st).state
                rest).1,
              Event.cycle :: Event.sleep 60
                :: (run_burst dist
                  (collect_once dist inp.fetchD inp.fetchC inp.ts st).state
                  rest).2) := rfl

theorem run_burst_trace (dist : ℚ → ℚ → ℚ) :
    ∀ (inputs : List CycleInput) (st : SysState),
      Event.raised ∉ (run_burst dist st inputs).2 →
      (run_burst dist st inputs).2 = burstTrace inputs.length := by
  intro inputs
  induction inputs with
  | nil =>
    intro st h
    rfl
  | cons inp rest ih =>
    intro st h
    by_cases hr : (collect_once dist inp.fetchD inp.fetchC inp.ts st).result
        = CollectResult.raised
    · exfalso
      apply h
      simp [run_burst_cons, hr]
    · cases rest with
      | nil =>
        rw [run_burst_cons dist st inp [], if_neg hr]
        rfl
      | cons r2 rs =>
        have hstep : run_burst dist st (inp :: r2 :: rs)
            = ((run_burst dist
                (collect_once dist inp.fetchD inp.fetchC inp.ts st).state
                (r2 :: rs)).1,
              Event.cycle :: Event.sleep 60
                :: (run_burst dist
                  (collect_once dist inp.fetchD inp.fetchC inp.ts st).state
                  (r2 :: rs)).2) := by
          rw [run_burst_cons dist st inp (r2 :: rs), if_neg hr]
        rw [hstep] at h ⊢
        have h' : Event.raised ∉ (run_burst dist
            (collect_once dist inp.fetchD inp.fetchC inp.ts st).state
            (r2 :: rs)).2 :=
          fun hm => h (List.mem_cons_of_mem _ (List.mem_cons_of_mem _ hm))
        rw [ih _ h']
        rfl

/-- C8: a burst of 5 cycles in which no cycle raises performs exactly 5
collection cycles and exactly 4 fixed 60-second sleeps, one between each
consecutive pair of cycles and none after the fifth. -/
theorem burst_five_cycles (dist : ℚ → ℚ → ℚ) (st : SysState)
    (inputs : List CycleInput) (hlen : inputs.length = 5)
    (hnr : Event.raised ∉ (run_burst dist st inputs).2) :
    (run_burst dist st inputs).2
      = [Event.cycle, Event.sleep 60, Event.cycle, Event.sleep 60, Event.cycle,
         Event.sleep 60, Event.cycle, Event.sleep 60, Event.cycle] ∧
    (run_burst dist st inputs).2.count Event.cycle = 5 ∧
    (run_burst dist st inputs).2.count (Event.sleep 60) = 4 := by
  have h := run_burst_trace dist inputs st hnr
  rw [hlen] at h
  rw [h]
  exact ⟨by rfl, by decide, by decide⟩

/-- Witness for C8: five concrete cycles whose fetches all fail (no cycle
raises) produce the 5-cycle, 4-sleep alternating trace. -/
theorem burst_five_cycles_witness :
    (run_burst wD wSt1 (List.replicate 5 wFailInput)).2
      = [Event.cycle, Event.sleep 60, Event.cycle, Event.sleep 60, Event.cycle,
         Event.sleep 60, Event.cycle, Event.sleep 60, Event.cycle] ∧
    (run_burst wD wSt1 (List.replicate 5 wFailInput)).2.count Event.cycle = 5 ∧
    (run_burst wD wSt1 (List.replicate 5 wFailInput)).2.count
      (Event.sleep 60) = 4 :=
  burst_five_cycles wD wSt1 (List.replicate 5 wFailInput) (by decide)
    (by decide)
